import Mathlib

/-!
Shallow embedding of the OsuStreamGen binary database decoder
(src/db/fmt.py, src/db/parser.py, src/db/model.py).

Modelling conventions:
* A byte stream (Python `BinaryIO` cursor) is a `List Nat` of the bytes that
  remain in front of the cursor; every reader returns the decoded value
  together with the remaining stream.  Python `fileobj.read(n)` returns
  `min n remaining` bytes, i.e. `s.take n` / `s.drop n`, never failing.
* Python exceptions are modelled with `Except Err`; the `Err` constructors
  name the Python exception classes that the source can raise.
* IEEE-754 `Single`/`Double` values are represented by their little-endian
  bit patterns (a `Nat`): `struct.unpack` never fails on a buffer of the
  exact width, and no claim depends on float arithmetic, only on the bytes
  consumed and on bit-pattern identity.
* Python `str` values are represented as lists of Unicode code points
  (`List Nat`); `str.encode("utf-8")` / `bytes.decode("utf-8")` are
  modelled by `utf8Encode` / `utf8Decode` below.
-/

/-- Errors raised by the Python source: `struct.error` (short buffer for
`struct.unpack`), `ValueError` (bad string indicator in `parse_string`),
`TypeError` (`ord` applied to the empty read at end of stream),
`IndexError` (`fileobj.read(1)[0]` at end of stream in `parse_uleb128`),
and `UnicodeDecodeError` (invalid UTF-8 payload). -/
inductive Err where
  | structError
  | valueError
  | typeError
  | indexError
  | unicodeError
  deriving DecidableEq

/-- A byte stream: the bytes still in front of the cursor. -/
abbrev Bytes := List Nat

/-- Python `int.from_bytes(bs, byteorder="little")`: little-endian value of
an arbitrary-length byte string (the empty string decodes to 0). -/
def int_from_bytes_le (bs : Bytes) : Nat :=
  bs.foldr (fun b acc => b + 256 * acc) 0

/-- Model of Python `str.encode("utf-8")` for one Unicode scalar value. -/
def utf8EncodeChar (c : Nat) : List Nat :=
  if c < 0x80 then [c]
  else if c < 0x800 then
    [0xC0 + c / 0x40, 0x80 + c % 0x40]
  else if c < 0x10000 then
    [0xE0 + c / 0x1000, 0x80 + c / 0x40 % 0x40, 0x80 + c % 0x40]
  else
    [0xF0 + c / 0x40000, 0x80 + c / 0x1000 % 0x40, 0x80 + c / 0x40 % 0x40,
      0x80 + c % 0x40]

/-- Model of Python `str.encode("utf-8")` on a whole string. -/
def utf8Encode : List Nat → List Nat
  | [] => []
  | c :: cs => utf8EncodeChar c ++ utf8Encode cs

/-- Model of Python `bytes.decode("utf-8")` (strict, as CPython: rejects
stray continuation bytes, overlong forms, surrogates, values above
U+10FFFF, and truncated sequences). -/
def utf8Decode : List Nat → Option (List Nat)
  | [] => some []
  | b :: rest =>
    if b < 0x80 then
      match utf8Decode rest with
      | some cs => some (b :: cs)
      | none => none
    else if b < 0xC2 then none
    else if b < 0xE0 then
      match rest with
      | b1 :: rest1 =>
        if 0x80 ≤ b1 ∧ b1 < 0xC0 then
          match utf8Decode rest1 with
          | some cs => some (((b - 0xC0) * 0x40 + (b1 - 0x80)) :: cs)
          | none => none
        else none
      | [] => none
    else if b < 0xF0 then
      match rest with
      | b1 :: b2 :: rest2 =>
        if (0x80 ≤ b1 ∧ b1 < 0xC0) ∧ (0x80 ≤ b2 ∧ b2 < 0xC0) then
          let c := (b - 0xE0) * 0x1000 + (b1 - 0x80) * 0x40 + (b2 - 0x80)
          if c < 0x800 ∨ (0xD800 ≤ c ∧ c < 0xE000) then none
          else
            match utf8Decode rest2 with
            | some cs => some (c :: cs)
            | none => none
        else none
      | _ => none
    else if b < 0xF5 then
      match rest with
      | b1 :: b2 :: b3 :: rest3 =>
        if (0x80 ≤ b1 ∧ b1 < 0xC0) ∧ (0x80 ≤ b2 ∧ b2 < 0xC0) ∧
            (0x80 ≤ b3 ∧ b3 < 0xC0) then
          let c := (b - 0xF0) * 0x40000 + (b1 - 0x80) * 0x1000 +
            (b2 - 0x80) * 0x40 + (b3 - 0x80)
          if c < 0x10000 ∨ 0x110000 ≤ c then none
          else
            match utf8Decode rest3 with
            | some cs => some (c :: cs)
            | none => none
        else none
      | _ => none
    else none

/-- Loop body of `parse_uleb128` (src/db/fmt.py lines 46-65): `result` and
`shift` are the Python locals; each byte contributes its low 7 bits at the
current shift, the loop ends when the high bit is clear.  Reading from an
exhausted stream is `fileobj.read(1)[0]` on `b""`, an `IndexError`. -/
def parse_uleb128_loop : Bytes → Nat → Nat → Except Err (Nat × Bytes)
  | [], _, _ => .error .indexError
  | b :: rest, result, shift =>
    let result' := result ||| ((b &&& 0x7F) <<< shift)
    if (b &&& 0x80) >>> 7 = 0 then .ok (result', rest)
    else parse_uleb128_loop rest result' (shift + 7)

/-- Python `parse_uleb128` (src/db/fmt.py): starts with `result = 0`,
`shift = 0`. -/
def parse_uleb128 (s : Bytes) : Except Err (Nat × Bytes) :=
  parse_uleb128_loop s 0 0

/-- Python `parse_string` (src/db/fmt.py lines 16-43): one indicator byte;
`0x00` is the empty string, `0x0B` is ULEB128 length plus that many bytes
of UTF-8 payload, anything else raises `ValueError`.  `ord` applied to the
empty read at end of stream raises `TypeError`. -/
def parse_string (s : Bytes) : Except Err (List Nat × Bytes) :=
  match s with
  | [] => .error .typeError
  | indicator :: rest =>
    if indicator = 0 then .ok ([], rest)
    else if indicator = 11 then
      match parse_uleb128 rest with
      | .error e => .error e
      | .ok (uleb, s1) =>
        match utf8Decode (s1.take uleb) with
        | none => .error .unicodeError
        | some cs => .ok (cs, s1.drop uleb)
    else .error .valueError

/-- Python `get_uleb128` (src/db/fmt.py lines 92-104): do-while loop,
emitting the low 7 bits of the remaining value per byte, setting the
continuation bit exactly when more value remains. -/
def get_uleb128 (n : Nat) : List Nat :=
  let byte := n &&& 0x7F
  let n' := n >>> 7
  if h : n' ≠ 0 then (byte ||| 0x80) :: get_uleb128 n'
  else [byte]
  termination_by n
  decreasing_by
    have h2 : n >>> 7 = n / 2 ^ 7 := Nat.shiftRight_eq_div_pow n 7
    simp only [h2] at h ⊢
    omega

/-- Python `get_string` (src/db/fmt.py lines 76-89): the empty string is the
single byte `0x00`; otherwise `0x0B`, then `get_uleb128(len(string))`
(the CHARACTER count), then the UTF-8 payload. -/
def get_string (s : List Nat) : List Nat :=
  if s = [] then [0x00]
  else 0x0B :: (get_uleb128 s.length ++ utf8Encode s)

deriving instance DecidableEq for Except

/-! ### Bit-arithmetic bridge lemmas -/

/-- Disjoint-bit or is addition: when `a` fits below bit `k`, or-ing in a
value shifted left by `k` adds it. -/
theorem lor_shiftLeft_eq_add {a : Nat} (b k : Nat) (h : a < 2 ^ k) :
    a ||| b <<< k = b * 2 ^ k + a := by
  apply Nat.eq_of_testBit_eq
  intro i
  rw [Nat.testBit_lor, Nat.testBit_shiftLeft]
  rcases Nat.lt_or_ge i k with hik | hik
  · have h1 : (decide (k ≤ i) && b.testBit (i - k)) = false := by
      simp [Nat.not_le.mpr hik]
    rw [h1, Bool.or_false, Nat.testBit_to_div_mod, Nat.testBit_to_div_mod]
    have hk : b * 2 ^ k + a = 2 ^ i * (2 * (b * 2 ^ (k - i - 1))) + a := by
      have h3 : 2 ^ k = 2 ^ i * (2 * 2 ^ (k - i - 1)) := by
        rw [← Nat.pow_succ', ← Nat.pow_add]
        congr 1
        omega
      rw [h3]
      ring
    rw [hk, Nat.mul_add_div (Nat.two_pow_pos i), Nat.mul_add_mod]
  · have ha : a.testBit i = false :=
      Nat.testBit_lt_two_pow (Nat.lt_of_lt_of_le h (Nat.pow_le_pow_right (by norm_num) hik))
    rw [ha, Bool.false_or]
    have hdiv : (b * 2 ^ k + a) / 2 ^ i = b / 2 ^ (i - k) := by
      have hi : 2 ^ i = 2 ^ k * 2 ^ (i - k) := by
        rw [← Nat.pow_add]
        congr 1
        omega
      rw [hi, ← Nat.div_div_eq_div_mul, Nat.mul_comm b, Nat.mul_add_div (Nat.two_pow_pos k),
          Nat.div_eq_of_lt h, Nat.add_zero]
    rw [Nat.testBit_to_div_mod, Nat.testBit_to_div_mod, hdiv]
    simp [hik]

/-- Masking with `0x7F` is reduction modulo 128. -/
theorem and_127_eq_mod (b : Nat) : b &&& 0x7F = b % 128 := by
  have h : (0x7F : Nat) = 2 ^ 7 - 1 := rfl
  rw [h, Nat.and_pow_two_sub_one_eq_mod]

/-- The continuation-bit test of `parse_uleb128` in arithmetic form. -/
theorem and_128_shift_eq (b : Nat) : (b &&& 0x80) >>> 7 = b / 128 % 2 := by
  have h : (0x80 : Nat) = 2 ^ 7 := rfl
  rw [h, Nat.and_two_pow, Nat.shiftRight_eq_div_pow,
      Nat.mul_div_cancel _ (Nat.two_pow_pos 7), Nat.testBit_to_div_mod]
  rcases Nat.mod_two_eq_zero_or_one (b / 2 ^ 7) with h2 | h2 <;>
    · rw [show (2 : Nat) ^ 7 = 128 from rfl] at h2
      simp [h2]

/-! ### ULEB128 unfolding lemmas -/

/-- Unfolding of `get_uleb128` when the value fits in one byte. -/
theorem get_uleb128_small {n : Nat} (h : n < 128) : get_uleb128 n = [n] := by
  unfold get_uleb128
  have h1 : n >>> 7 = 0 := by
    rw [Nat.shiftRight_eq_div_pow]
    norm_num
    omega
  simp [h1, and_127_eq_mod, Nat.mod_eq_of_lt h]

/-- Or-ing in the continuation bit 0x80 adds 128 to a 7-bit value. -/
theorem lor_128_eq_add {m : Nat} (h : m < 128) : m ||| 128 = m + 128 := by
  have h1 : m ||| 1 <<< 7 = 1 * 2 ^ 7 + m := lor_shiftLeft_eq_add 1 7 (by omega)
  have h2 : (1 : Nat) <<< 7 = 128 := rfl
  rw [h2] at h1
  rw [h1]
  norm_num [Nat.add_comm]

/-- Unfolding of `get_uleb128` when a continuation byte is emitted. -/
theorem get_uleb128_large {n : Nat} (h : 128 ≤ n) :
    get_uleb128 n = (n % 128 + 128) :: get_uleb128 (n / 128) := by
  conv_lhs => unfold get_uleb128
  have h1 : n >>> 7 = n / 128 := by
    rw [Nat.shiftRight_eq_div_pow]
  have h2 : n / 128 ≠ 0 := by omega
  simp only [h1, h2, ne_eq, not_false_eq_true, dite_true]
  rw [and_127_eq_mod, lor_128_eq_add (by omega : n % 128 < 128)]

/-- One step of the decoding loop. -/
theorem parse_uleb128_loop_cons (b : Nat) (rest : Bytes) (result shift : Nat) :
    parse_uleb128_loop (b :: rest) result shift =
      if (b &&& 0x80) >>> 7 = 0 then .ok (result ||| ((b &&& 0x7F) <<< shift), rest)
      else parse_uleb128_loop rest (result ||| ((b &&& 0x7F) <<< shift)) (shift + 7) := rfl

/-- Generalized round-trip invariant: decoding the encoding of `n`, with an
accumulator that only occupies bits below `shift`, adds `n * 2 ^ shift`. -/
theorem parse_get_uleb_aux (n : Nat) : ∀ (result shift : Nat) (rest : Bytes),
    result < 2 ^ shift →
    parse_uleb128_loop (get_uleb128 n ++ rest) result shift =
      .ok (result + n * 2 ^ shift, rest) := by
  induction n using Nat.strong_induction_on with
  | _ n ih =>
    intro result shift rest hlt
    by_cases hn : n < 128
    · rw [get_uleb128_small hn, List.cons_append, List.nil_append,
        parse_uleb128_loop_cons]
      have hc : (n &&& 0x80) >>> 7 = 0 := by
        rw [and_128_shift_eq]
        omega
      rw [if_pos hc, and_127_eq_mod, Nat.mod_eq_of_lt hn,
          lor_shiftLeft_eq_add n shift hlt, Nat.add_comm]
    · push_neg at hn
      rw [get_uleb128_large hn, List.cons_append, parse_uleb128_loop_cons]
      have hc : ((n % 128 + 128) &&& 0x80) >>> 7 ≠ 0 := by
        rw [and_128_shift_eq]
        omega
      rw [if_neg hc, and_127_eq_mod]
      have hm : (n % 128 + 128) % 128 = n % 128 := by omega
      rw [hm, lor_shiftLeft_eq_add (n % 128) shift hlt]
      have h7 : 2 ^ (shift + 7) = 2 ^ shift * 128 := by
        rw [Nat.pow_add]
      have hlt' : n % 128 * 2 ^ shift + result < 2 ^ (shift + 7) := by
        have h1 : n % 128 ≤ 127 := by omega
        have h2 := Nat.mul_le_mul_right (2 ^ shift) h1
        rw [h7]
        linarith
      have hrec := ih (n / 128) (by omega) (n % 128 * 2 ^ shift + result)
        (shift + 7) rest hlt'
      rw [hrec]
      have key : n % 128 * 2 ^ shift + n / 128 * 2 ^ (shift + 7) = n * 2 ^ shift := by
        rw [h7]
        have h8 : n % 128 + 128 * (n / 128) = n := Nat.mod_add_div n 128
        calc n % 128 * 2 ^ shift + n / 128 * (2 ^ shift * 128)
            = (n % 128 + 128 * (n / 128)) * 2 ^ shift := by ring
          _ = n * 2 ^ shift := by rw [h8]
      congr 1
      congr 1
      linarith

/-- C7: for every non-negative integer n, decoding the byte sequence
produced by the ULEB128 encoder yields n again, including n = 0:
`parse_uleb128 (get_uleb128 n)` succeeds with value n, consuming the
whole encoding. -/
theorem claim_C7_uleb128_roundtrip (n : Nat) :
    parse_uleb128 (get_uleb128 n) = .ok (n, []) := by
  have h := parse_get_uleb_aux n 0 0 [] (by norm_num)
  simpa [parse_uleb128] using h

/-! ### read_type (src/db/fmt.py lines 164-232) -/

/-- The `"Int"` branch of `read_type`: `fobj.read(4)` (which returns up to
4 bytes) decoded with `int.from_bytes(bs, "little")`, which accepts a
short byte string at end of stream without complaint. -/
def read_Int (s : Bytes) : Except Err (Nat × Bytes) :=
  .ok (int_from_bytes_le (s.take 4), s.drop 4)

/-- The `"Short"` branch of `read_type`: 2 bytes little-endian. -/
def read_Short (s : Bytes) : Except Err (Nat × Bytes) :=
  .ok (int_from_bytes_le (s.take 2), s.drop 2)

/-- The `"Long"` branch of `read_type`: 8 bytes little-endian. -/
def read_Long (s : Bytes) : Except Err (Nat × Bytes) :=
  .ok (int_from_bytes_le (s.take 8), s.drop 8)

/-- The `"DateTime"` branch of `read_type`: 8 bytes little-endian. -/
def read_DateTime (s : Bytes) : Except Err (Nat × Bytes) :=
  .ok (int_from_bytes_le (s.take 8), s.drop 8)

/-- The `"Byte"` branch of `read_type`: returns the raw `bytes` object from
`fobj.read(1)` (possibly empty at end of stream). -/
def read_Byte (s : Bytes) : Except Err (List Nat × Bytes) :=
  .ok (s.take 1, s.drop 1)

/-- The `"Single"` branch of `read_type`: `struct.unpack("f", bs)` raises
`struct.error` unless `bs` has exactly 4 bytes; the float is modelled by
its little-endian bit pattern. -/
def read_Single (s : Bytes) : Except Err (Nat × Bytes) :=
  if (s.take 4).length = 4 then .ok (int_from_bytes_le (s.take 4), s.drop 4)
  else .error .structError

/-- The `"Double"` branch of `read_type`: `struct.unpack("d", bs)` raises
`struct.error` unless `bs` has exactly 8 bytes. -/
def read_Double (s : Bytes) : Except Err (Nat × Bytes) :=
  if (s.take 8).length = 8 then .ok (int_from_bytes_le (s.take 8), s.drop 8)
  else .error .structError

/-- The `"Boolean"` branch of `read_type`: one byte, `bs != b"\x00"`.
Note that at end of stream `bs` is empty and the comparison yields `true`. -/
def read_Boolean (s : Bytes) : Except Err (Bool × Bytes) :=
  .ok (s.take 1 != [0], s.drop 1)

/-- The `"IntDoublepair"` branch of `read_type`: tag Byte, Int, tag Byte,
Double; the tag bytes are read and discarded. -/
def read_IntDoublepair (s : Bytes) : Except Err ((Nat × Nat) × Bytes) := do
  let (_oxo8, s1) ← read_Byte s
  let (i, s2) ← read_Int s1
  let (_oxob, s3) ← read_Byte s2
  let (d, s4) ← read_Double s3
  return ((i, d), s4)

/-- The `"Timingpoint"` branch of `read_type`: Double (bpm), Double
(offset), then one byte compared against `b"\x00"` (uninherited flag). -/
def read_Timingpoint (s : Bytes) : Except Err ((Nat × Nat × Bool) × Bytes) := do
  let (bpm, s1) ← read_Double s
  let (offset, s2) ← read_Double s1
  let (uninherited, s3) ← read_Boolean s2
  return ((bpm, offset, uninherited), s3)

/-- Decoded values as returned by the untyped `read_type` dispatcher. -/
inductive Value where
  | int (n : Nat)
  | str (cs : List Nat)
  | byte (bs : List Nat)
  | bool (b : Bool)
  | single (bits : Nat)
  | double (bits : Nat)
  | intDoublePair (i : Nat) (dbits : Nat)
  | timingPoint (tempo offs : Nat) (flag : Bool)
  | dateTime (n : Nat)
  | noneVal
  deriving DecidableEq

/-- Python `read_type` (src/db/fmt.py lines 164-232): dispatches on the
type-name string.  The final `else` branch of the source only calls
`log.warn` and implicitly returns `None` without consuming any bytes,
modelled by `Value.noneVal` with the stream unchanged. -/
def read_type (ty : String) (s : Bytes) : Except Err (Value × Bytes) :=
  if ty = "Int" then (read_Int s).map (fun p => (.int p.1, p.2))
  else if ty = "String" then (parse_string s).map (fun p => (.str p.1, p.2))
  else if ty = "Byte" then (read_Byte s).map (fun p => (.byte p.1, p.2))
  else if ty = "Short" then (read_Short s).map (fun p => (.int p.1, p.2))
  else if ty = "Long" then (read_Long s).map (fun p => (.int p.1, p.2))
  else if ty = "Single" then (read_Single s).map (fun p => (.single p.1, p.2))
  else if ty = "Double" then (read_Double s).map (fun p => (.double p.1, p.2))
  else if ty = "Boolean" then (read_Boolean s).map (fun p => (.bool p.1, p.2))
  else if ty = "IntDoublepair" then
    (read_IntDoublepair s).map (fun p => (.intDoublePair p.1.1 p.1.2, p.2))
  else if ty = "Timingpoint" then
    (read_Timingpoint s).map (fun p => (.timingPoint p.1.1 p.1.2.1 p.1.2.2, p.2))
  else if ty = "DateTime" then (read_DateTime s).map (fun p => (.dateTime p.1, p.2))
  else .ok (.noneVal, s)

/-- C1 (actual code behavior at a truncated stream): reading an `Int` from
a 2-byte stream does not fail with a truncated-input error; the source
silently decodes the two available bytes (`int.from_bytes` accepts short
input), and reading a `Boolean` at end of stream silently yields `true`
instead of failing. -/
theorem claim_C1_truncated_read_silently_succeeds :
    read_type "Int" [1, 0] = .ok (.int 1, []) ∧
    read_type "Boolean" [] = .ok (.bool true, []) := by
  exact ⟨rfl, rfl⟩

/-- C5 (actual code behavior): requesting the undocumented primitive kind
"Float" does not fail; the source logs a warning and returns `None` with
the cursor left in place. -/
theorem claim_C5_unknown_kind_silently_returns_none :
    read_type "Float" [1, 2, 3] = .ok (.noneVal, [1, 2, 3]) := rfl

/-- C3 (actual code behavior at the failing input): the encoder writes the
CHARACTER count (`len(string)`) as the ULEB128 length, so for the one-
character string U+00E9 whose UTF-8 form is two bytes, the encoding is
`0x0B, 1, 0xC3, 0xA9`; decoding it reads only one payload byte, which is
not valid UTF-8, so the round trip fails instead of returning the string. -/
theorem claim_C3_string_roundtrip_fails_on_nonascii :
    get_string [0xE9] = [0x0B, 1, 0xC3, 0xA9] ∧
    parse_string (get_string [0xE9]) = .error .unicodeError := by
  have h : get_string [0xE9] = [0x0B, 1, 0xC3, 0xA9] := by
    unfold get_string
    norm_num [get_uleb128_small, utf8Encode, utf8EncodeChar]
  refine ⟨h, ?_⟩
  rw [h]
  decide

/-- C6: string decoding reads one indicator byte: `0x00` yields the empty
string with no further bytes consumed; `0x0B` reads a ULEB128 length n,
then n payload bytes decoded as UTF-8; any other indicator value fails
with the malformed-string error (`ValueError` in the source). -/
theorem claim_C6_string_indicator_protocol :
    (∀ rest : Bytes, parse_string (0 :: rest) = .ok ([], rest)) ∧
    (∀ (rest s1 : Bytes) (n : Nat) (cs : List Nat),
      parse_uleb128 rest = .ok (n, s1) →
      utf8Decode (s1.take n) = some cs →
      parse_string (11 :: rest) = .ok (cs, s1.drop n)) ∧
    (∀ (b : Nat) (rest : Bytes), b ≠ 0 → b ≠ 11 →
      parse_string (b :: rest) = .error .valueError) := by
  refine ⟨fun rest => rfl, ?_, ?_⟩
  · intro rest s1 n cs h1 h2
    simp [parse_string, h1, h2]
  · intro b rest hb0 hb11
    simp [parse_string, hb0, hb11]

/-- Witness for C6 at concrete inputs, covering all three indicator cases
(0x00, 0x0B with a one-byte ASCII payload, and the malformed 0x05). -/
theorem claim_C6_witness :
    parse_string [0, 9] = .ok ([], [9]) ∧
    parse_string [11, 1, 65, 7] = .ok ([65], [7]) ∧
    parse_string [5] = .error .valueError :=
  ⟨claim_C6_string_indicator_protocol.1 [9],
   claim_C6_string_indicator_protocol.2.1 [1, 65, 7] [65, 7] 1 [65]
     (by decide) (by decide),
   claim_C6_string_indicator_protocol.2.2 5 [] (by decide) (by decide)⟩

/-! ### Data model (src/db/model.py) -/

/-- Python dataclass `Difficulty` (src/db/model.py lines 6-21): floats as
IEEE bit patterns, strings as code-point lists. -/
structure Difficulty where
  path : List Nat
  name : List Nat
  artist : List Nat
  mapper : List Nat
  difficulty : List Nat
  ar : Nat
  cs : Nat
  hp : Nat
  od : Nat
  hash : List Nat
  api_beatmap_id : Nat
  beatmap_id : Nat
  beatmapset_id : Nat
  timing : List (Nat × Nat × Bool)
  deriving DecidableEq

/-- Python dataclass `Song` (src/db/model.py lines 24-26). -/
structure Song where
  difficulties : List Difficulty
  deriving DecidableEq

/-- Python class `Songs` (src/db/model.py lines 29-38): the ordered song
list plus `bid_mapping`, the `beatmap_id → Difficulty` dict, modelled as an
insertion-ordered association list with Python-dict update semantics. -/
structure Songs where
  songs : List Song
  bid_mapping : List (Nat × Difficulty)
  deriving DecidableEq

/-! ### parse_beatmap (src/db/parser.py lines 83-281) -/

/-- Repeated `IntDoublepair` reads in order (the list comprehension inside
`read_SR`). -/
def read_idps : Nat → Bytes → Except Err (List (Nat × Nat) × Bytes)
  | 0, s => .ok ([], s)
  | k + 1, s => do
    let (p, s1) ← read_IntDoublepair s
    let (ps, s2) ← read_idps k s1
    return (p :: ps, s2)

/-- `read_SR` from `parse_beatmap` (src/db/parser.py lines 144-147): an Int
count, then that many IntDoublepair entries. -/
def read_SR (s : Bytes) : Except Err (List (Nat × Nat) × Bytes) := do
  let (num_idp, s1) ← read_Int s
  read_idps num_idp s1

/-- The timing-point batch of `parse_beatmap` (src/db/parser.py lines
173-175): `k` repetitions of the `"Timingpoint"` read, in order. -/
def read_tps : Nat → Bytes → Except Err (List (Nat × Nat × Bool) × Bytes)
  | 0, s => .ok ([], s)
  | k + 1, s => do
    let (tp, s1) ← read_Timingpoint s
    let (tps, s2) ← read_tps k s1
    return (tp :: tps, s2)

/-- All locals bound by `parse_beatmap` (src/db/parser.py lines 83-252), in
source order, so the decoding of every field is observable;
`parse_beatmap` itself keeps only a subset in `Difficulty`. -/
structure BeatmapFields where
  artist : List Nat
  artist_u : List Nat
  song : List Nat
  song_u : List Nat
  creator : List Nat
  difficulty : List Nat
  audio_file : List Nat
  md5 : List Nat
  osu_file : List Nat
  ranked_status : List Nat
  last_modified : Nat
  num_hitcircles : Nat
  num_sliders : Nat
  num_spinners : Nat
  ar : Nat
  cs : Nat
  hp : Nat
  od : Nat
  slider_velocity : Nat
  stars_standard : List (Nat × Nat)
  stars_taiko : List (Nat × Nat)
  stars_ctb : List (Nat × Nat)
  stars_mania : List (Nat × Nat)
  drain_time : Nat
  total_time : Nat
  preview_time : Nat
  num_timingpoints : Nat
  timingpoints : List (Nat × Nat × Bool)
  beatmap_id : Nat
  beatmap_set_id : Nat
  thread_id : Nat
  grade_standard : List Nat
  grade_taiko : List Nat
  grade_ctb : List Nat
  grade_mania : List Nat
  local_offset : Nat
  stack_leniency : Nat
  gameplay_mode : List Nat
  source : List Nat
  tags : List Nat
  online_offset : Nat
  font : List Nat
  unplayed : Bool
  last_played : Nat
  is_osz2 : Bool
  beatmap_folder : List Nat
  last_checked : Nat
  ignore_sounds : Bool
  ignore_skin : Bool
  disable_storyboard : Bool
  disable_video : Bool
  visual_override : Bool
  unknown_int_modified : Nat
  mania_scroll_speed : List Nat
  deriving DecidableEq

/-- Python `parse_beatmap` field reads (src/db/parser.py lines 83-252) in
EXACT source order.  Note lines 99-103: the ranked-status Byte is followed
immediately by the last-modified Long and only then by the three
hit-object-count Shorts; lines 127-131 read the four difficulty stats
unconditionally as Singles (`bm_diff_types = ["Single"] * 4`, no branch on
the format version); and no version-conditional Short is read before the
trailing Int and Byte (lines 241-245). -/
def parse_beatmap_fields (f : Bytes) : Except Err (BeatmapFields × Bytes) := do
  let (artist, f) ← parse_string f
  let (artist_u, f) ← parse_string f
  let (song, f) ← parse_string f
  let (song_u, f) ← parse_string f
  let (creator, f) ← parse_string f
  let (difficulty, f) ← parse_string f
  let (audio_file, f) ← parse_string f
  let (md5, f) ← parse_string f
  let (osu_file, f) ← parse_string f
  let (ranked_status, f) ← read_Byte f
  let (last_modified, f) ← read_Long f
  let (num_hitcircles, f) ← read_Short f
  let (num_sliders, f) ← read_Short f
  let (num_spinners, f) ← read_Short f
  let (ar, f) ← read_Single f
  let (cs, f) ← read_Single f
  let (hp, f) ← read_Single f
  let (od, f) ← read_Single f
  let (slider_velocity, f) ← read_Double f
  let (stars_standard, f) ← read_SR f
  let (stars_taiko, f) ← read_SR f
  let (stars_ctb, f) ← read_SR f
  let (stars_mania, f) ← read_SR f
  let (drain_time, f) ← read_Int f
  let (total_time, f) ← read_Int f
  let (preview_time, f) ← read_Int f
  let (num_timingpoints, f) ← read_Int f
  let (timingpoints, f) ← read_tps num_timingpoints f
  let (beatmap_id, f) ← read_Int f
  let (beatmap_set_id, f) ← read_Int f
  let (thread_id, f) ← read_Int f
  let (grade_standard, f) ← read_Byte f
  let (grade_taiko, f) ← read_Byte f
  let (grade_ctb, f) ← read_Byte f
  let (grade_mania, f) ← read_Byte f
  let (local_offset, f) ← read_Short f
  let (stack_leniency, f) ← read_Single f
  let (gameplay_mode, f) ← read_Byte f
  let (source, f) ← parse_string f
  let (tags, f) ← parse_string f
  let (online_offset, f) ← read_Short f
  let (font, f) ← parse_string f
  let (unplayed, f) ← read_Boolean f
  let (last_played, f) ← read_Long f
  let (is_osz2, f) ← read_Boolean f
  let (beatmap_folder, f) ← parse_string f
  let (last_checked, f) ← read_Long f
  let (ignore_sounds, f) ← read_Boolean f
  let (ignore_skin, f) ← read_Boolean f
  let (disable_storyboard, f) ← read_Boolean f
  let (disable_video, f) ← read_Boolean f
  let (visual_override, f) ← read_Boolean f
  let (unknown_int_modified, f) ← read_Int f
  let (mania_scroll_speed, f) ← read_Byte f
  return (BeatmapFields.mk artist artist_u song song_u creator difficulty
    audio_file md5 osu_file ranked_status last_modified num_hitcircles
    num_sliders num_spinners ar cs hp od slider_velocity stars_standard
    stars_taiko stars_ctb stars_mania drain_time total_time preview_time
    num_timingpoints timingpoints beatmap_id beatmap_set_id thread_id
    grade_standard grade_taiko grade_ctb grade_mania local_offset
    stack_leniency gameplay_mode source tags online_offset font unplayed
    last_played is_osz2 beatmap_folder last_checked ignore_sounds
    ignore_skin disable_storyboard disable_video visual_override
    unknown_int_modified mania_scroll_speed, f)

/-- Python `parse_beatmap`'s final `Difficulty(...)` construction
(src/db/parser.py lines 254-269): `beatmap_id` is passed for BOTH the
`api_beatmap_id` and the `beatmap_id` positional arguments. -/
def parse_beatmap (f : Bytes) : Except Err (Difficulty × Bytes) :=
  (parse_beatmap_fields f).map (fun p =>
    ({ path := p.1.osu_file
       name := p.1.song
       artist := p.1.artist
       mapper := p.1.creator
       difficulty := p.1.difficulty
       ar := p.1.ar
       cs := p.1.cs
       hp := p.1.hp
       od := p.1.od
       hash := p.1.md5
       api_beatmap_id := p.1.beatmap_id
       beatmap_id := p.1.beatmap_id
       beatmapset_id := p.1.beatmap_set_id
       timing := p.1.timingpoints }, p.2))

/-! ### load_db (src/db/parser.py lines 284-321) -/

/-- Python dict assignment `m[k] = v`: update the existing key in place, or
append a new entry. -/
def dictInsert (m : List (Nat × Difficulty)) (k : Nat) (v : Difficulty) :
    List (Nat × Difficulty) :=
  if m.any (fun p => p.1 == k) then
    m.map (fun p => if p.1 == k then (k, v) else p)
  else m ++ [(k, v)]

/-- Python `mapsets.setdefault(key, []).append(v)`. -/
def setdefaultAppend (m : List (Nat × List Difficulty)) (k : Nat)
    (v : Difficulty) : List (Nat × List Difficulty) :=
  if m.any (fun p => p.1 == k) then
    m.map (fun p => if p.1 == k then (p.1, p.2 ++ [v]) else p)
  else m ++ [(k, [v])]

/-- The `bid_mapping` side of the grouping loop (src/db/parser.py lines
311-312): `songs.bid_mapping[map.beatmap_id] = map` for each record in
order. -/
def buildBidMapping (beatmaps : List Difficulty) : List (Nat × Difficulty) :=
  beatmaps.foldl (fun m d => dictInsert m d.beatmap_id d) []

/-- The `mapsets` side of the grouping loop (src/db/parser.py line 313):
`mapsets.setdefault(map.beatmapset_id, []).append(map)` in order. -/
def buildMapsets (beatmaps : List Difficulty) : List (Nat × List Difficulty) :=
  beatmaps.foldl (fun ms d => setdefaultAppend ms d.beatmapset_id d) []

/-- The assembly phase of `load_db` (src/db/parser.py lines 309-319): fill
`bid_mapping`, group by `beatmapset_id` preserving first-seen order, then
append one `Song` per mapset value. -/
def assemble (beatmaps : List Difficulty) : Songs :=
  { songs := (buildMapsets beatmaps).map (fun p => { difficulties := p.2 })
    bid_mapping := buildBidMapping beatmaps }

/-- The record batch of `load_db` (src/db/parser.py line 307):
`[parse_beatmap(fobj) for _ in range(num_maps)]`. -/
def parse_beatmaps : Nat → Bytes → Except Err (List Difficulty × Bytes)
  | 0, s => .ok ([], s)
  | k + 1, s => do
    let (d, s1) ← parse_beatmap s
    let (ds, s2) ← parse_beatmaps k s1
    return (d :: ds, s2)

/-- Python `load_db` (src/db/parser.py lines 284-321): the six header
fields in order, then `num_maps` records, then assembly.  The header
`version` is bound but never used to select field widths. -/
def load_db (s : Bytes) : Except Err Songs := do
  let (_version, s) ← read_Int s
  let (_num_folders, s) ← read_Int s
  let (_unlocked, s) ← read_Boolean s
  let (_unlock_time, s) ← read_DateTime s
  let (_player_name, s) ← parse_string s
  let (num_maps, s) ← read_Int s
  let (beatmaps, _) ← parse_beatmaps num_maps s
  return assemble beatmaps

/-! ### Concrete sample inputs -/

/-- A fully populated record in the layout the code actually consumes:
nine empty strings, the status byte, then the 14 bytes
`[1,0,0,0,0,0,0,0, 2,0, 3,0, 4,0]`, four 4-byte Singles for the stats,
and the remaining fields (one timing point, ids 42/7, etc.). -/
def sampleRecord : Bytes :=
  [0, 0, 0, 0, 0, 0, 0, 0, 0] ++
  [4] ++
  [1, 0, 0, 0, 0, 0, 0, 0] ++
  [2, 0, 3, 0, 4, 0] ++
  [10, 0, 0, 0] ++ [20, 0, 0, 0] ++ [30, 0, 0, 0] ++ [40, 0, 0, 0] ++
  List.replicate 8 0 ++
  [0, 0, 0, 0] ++ [0, 0, 0, 0] ++ [0, 0, 0, 0] ++ [0, 0, 0, 0] ++
  [5, 0, 0, 0] ++ [6, 0, 0, 0] ++ [0, 0, 0, 0] ++
  [1, 0, 0, 0] ++
  (List.replicate 16 0 ++ [1]) ++
  [42, 0, 0, 0] ++ [7, 0, 0, 0] ++ [0, 0, 0, 0] ++
  [1, 2, 3, 4] ++
  [0, 0] ++ [0, 0, 0, 0] ++ [0] ++
  [0] ++ [0] ++ [0, 0] ++ [0] ++
  [1] ++ List.replicate 8 0 ++ [0] ++
  [0] ++ List.replicate 8 0 ++
  [0, 0, 0, 0, 0] ++
  [0, 0, 0, 0] ++ [9]

/-- The `Difficulty` that `parse_beatmap` produces from `sampleRecord`. -/
def sampleDifficulty : Difficulty :=
  { path := [], name := [], artist := [], mapper := [], difficulty := []
    ar := 10, cs := 20, hp := 30, od := 40, hash := []
    api_beatmap_id := 42, beatmap_id := 42, beatmapset_id := 7
    timing := [(0, 0, true)] }

/-- A whole database file whose header declares format version 20140608
(bytes `[64, 82, 51, 1]` little-endian), which is BELOW the 20140609
threshold, followed by one record in the modern wide layout. -/
def sampleDb : Bytes :=
  [64, 82, 51, 1] ++
  [0, 0, 0, 0] ++ [1] ++ List.replicate 8 0 ++ [0] ++ [1, 0, 0, 0] ++
  sampleRecord

/-- C4 (actual code behavior): on a record whose 14 bytes after the
ranked-status Byte are `[1,0,0,0,0,0,0,0, 2,0, 3,0, 4,0]`, the decoder
assigns `last_modified = 1` (the FIRST 8 bytes, read immediately after the
status byte) and only then the three hit-object counts 2, 3, 4 from the
following 6 bytes — not the order the claim states (Shorts first, then the
Long from the trailing 8 bytes). -/
theorem claim_C4_long_read_before_shorts :
    (parse_beatmap_fields sampleRecord).map
      (fun p => (p.1.ranked_status, p.1.last_modified, p.1.num_hitcircles,
        p.1.num_sliders, p.1.num_spinners)) = .ok ([4], 1, 2, 3, 4) := by
  rfl

/-- C10: every `Difficulty` produced by `parse_beatmap` has
`api_beatmap_id = beatmap_id`, because the single decoded chart id is
passed for both constructor arguments. -/
theorem claim_C10_api_beatmap_id_eq_beatmap_id (s : Bytes) (d : Difficulty)
    (rest : Bytes) (h : parse_beatmap s = .ok (d, rest)) :
    d.api_beatmap_id = d.beatmap_id := by
  cases hp : parse_beatmap_fields s with
  | error e => simp [parse_beatmap, hp, Except.map] at h
  | ok p =>
    simp only [parse_beatmap, hp, Except.map] at h
    rw [Except.ok.injEq, Prod.mk.injEq] at h
    obtain ⟨h1, -⟩ := h
    rw [← h1]

/-- Witness for C10: `parse_beatmap` succeeds on `sampleRecord` and the two
identifier fields of the result coincide. -/
theorem claim_C10_witness :
    sampleDifficulty.api_beatmap_id = sampleDifficulty.beatmap_id :=
  claim_C10_api_beatmap_id_eq_beatmap_id sampleRecord sampleDifficulty []
    (by rfl)

/-- C2 (actual code behavior): decoding a database whose header version is
20140608 (strictly below the 20140609 threshold) still reads the four
difficulty stats as 4-byte Singles (`ar = 10` from the bytes
`[10,0,0,0]`, etc.) and reads no extra Short, consuming the modern layout
exactly; `parse_beatmap` takes no version input at all, so no branch on
the header's format version exists. -/
theorem claim_C2_no_version_branch :
    load_db sampleDb =
      .ok { songs := [{ difficulties := [sampleDifficulty] }],
            bid_mapping := [(42, sampleDifficulty)] } := by
  rfl

/-! ### Timing-point consumption (claim C9) -/

/-- A `Double` read succeeds on a stream of at least 8 bytes, consuming
exactly 8. -/
theorem read_Double_of_le {s : Bytes} (h : 8 ≤ s.length) :
    read_Double s = .ok (int_from_bytes_le (s.take 8), s.drop 8) := by
  unfold read_Double
  rw [if_pos]
  rw [List.length_take]
  omega

/-- A `Timingpoint` read succeeds on a stream of at least 17 bytes,
consuming exactly 17: Double tempo, Double offset, Boolean flag. -/
theorem read_Timingpoint_of_le {s : Bytes} (h : 17 ≤ s.length) :
    read_Timingpoint s =
      .ok ((int_from_bytes_le (s.take 8), int_from_bytes_le ((s.drop 8).take 8),
        ((s.drop 16).take 1 != [0])), s.drop 17) := by
  have h1 : read_Double s = .ok (int_from_bytes_le (s.take 8), s.drop 8) :=
    read_Double_of_le (by omega)
  have h2 : read_Double (s.drop 8) =
      .ok (int_from_bytes_le ((s.drop 8).take 8), (s.drop 8).drop 8) :=
    read_Double_of_le (by rw [List.length_drop]; omega)
  simp [read_Timingpoint, h1, h2, read_Boolean, bind, Except.bind,
    pure, Except.pure, List.drop_drop, List.tail_drop]

/-- The timing-point batch consumes exactly 17 bytes per entry. -/
theorem read_tps_of_le : ∀ (k : Nat) (s : Bytes), 17 * k ≤ s.length →
    ∃ tps, read_tps k s = .ok (tps, s.drop (17 * k)) ∧ tps.length = k := by
  intro k
  induction k with
  | zero => intro s _; exact ⟨[], by simp [read_tps], rfl⟩
  | succ k ih =>
    intro s h
    have h17 : 17 ≤ s.length := by omega
    obtain ⟨tps, htps, hlen⟩ := ih (s.drop 17) (by rw [List.length_drop]; omega)
    refine ⟨(int_from_bytes_le (s.take 8), int_from_bytes_le ((s.drop 8).take 8),
      ((s.drop 16).take 1 != [0])) :: tps, ?_, by simp [hlen]⟩
    rw [show (17 * (k + 1)) = 17 + 17 * k by ring, ← List.drop_drop]
    simp [read_tps, read_Timingpoint_of_le h17, htps, bind, Except.bind,
      pure, Except.pure]

/-- C9 (amended): when the timing-point count field holds k, the decoder
consumes exactly k TimingPoint entries — 17 bytes each (Double tempo,
Double offset, Boolean authoritative flag), i.e. 17k bytes in total rather
than 16k+1 — and leaves the cursor immediately after the last entry. -/
theorem claim_C9_timing_points_consume_17k_bytes (k : Nat) (s : Bytes)
    (h : 17 * k ≤ s.length) :
    ∃ tps, read_tps k s = .ok (tps, s.drop (17 * k)) ∧ tps.length = k :=
  read_tps_of_le k s h

/-- Witness for C9 at k = 1 on a 17-byte stream. -/
theorem claim_C9_witness :
    ∃ tps, read_tps 1 (List.replicate 17 0) =
      .ok (tps, (List.replicate 17 (0 : Nat)).drop (17 * 1)) ∧
      tps.length = 1 :=
  claim_C9_timing_points_consume_17k_bytes 1 (List.replicate 17 0) (by simp)

/-- C9 counterexample to the literal 16k+1 byte count: decoding k = 2
timing points from a 34-byte stream consumes all 34 = 17·2 bytes, so the
cursor is NOT at offset 16·2+1 = 33 (which would leave the final byte
unread). -/
theorem claim_C9_counterexample :
    read_tps 2 (List.replicate 33 0 ++ [7]) =
      .ok ([(0, 0, false), (0, 0, true)], []) ∧
    (read_tps 2 (List.replicate 33 0 ++ [7])).map Prod.snd ≠
      .ok ((List.replicate 33 (0 : Nat) ++ [7]).drop (16 * 2 + 1)) := by
  constructor
  · decide
  · decide

/-! ### Catalog index invariants (claim C8) -/

/-- Membership across one `setdefaultAppend` step: a record occurs in some
group afterwards iff it occurred before or is the inserted record. -/
theorem mem_setdefaultAppend (x : Difficulty) (ms : List (Nat × List Difficulty))
    (k : Nat) (v : Difficulty) :
    (∃ p ∈ setdefaultAppend ms k v, x ∈ p.2) ↔ (∃ p ∈ ms, x ∈ p.2) ∨ x = v := by
  unfold setdefaultAppend
  cases hany : ms.any (fun p => p.1 == k) with
  | false =>
    simp only [hany, Bool.false_eq_true, if_false]
    constructor
    · rintro ⟨p, hp, hx⟩
      rcases List.mem_append.mp hp with h | h
      · exact Or.inl ⟨p, h, hx⟩
      · simp only [List.mem_singleton] at h
        subst h
        simp only [List.mem_singleton] at hx
        exact Or.inr hx
    · rintro (⟨p, hp, hx⟩ | rfl)
      · exact ⟨p, List.mem_append_left _ hp, hx⟩
      · exact ⟨(k, [x]), List.mem_append_right _ (by simp), by simp⟩
  | true =>
    simp only [hany, if_true]
    constructor
    · rintro ⟨p, hp, hx⟩
      rw [List.mem_map] at hp
      obtain ⟨q, hq, hqp⟩ := hp
      by_cases hqk : q.1 == k
      · rw [if_pos hqk] at hqp
        subst hqp
        simp only [List.mem_append, List.mem_singleton] at hx
        rcases hx with hx | rfl
        · exact Or.inl ⟨q, hq, hx⟩
        · exact Or.inr rfl
      · rw [if_neg hqk] at hqp
        subst hqp
        exact Or.inl ⟨q, hq, hx⟩
    · rintro (⟨p, hp, hx⟩ | rfl)
      · by_cases hpk : p.1 == k
        · exact ⟨(p.1, p.2 ++ [v]), List.mem_map.mpr ⟨p, hp, by rw [if_pos hpk]⟩,
            by simp [hx]⟩
        · exact ⟨p, List.mem_map.mpr ⟨p, hp, by rw [if_neg hpk]⟩, hx⟩
      · obtain ⟨q, hq, hqk⟩ := List.any_eq_true.mp hany
        exact ⟨(q.1, q.2 ++ [x]), List.mem_map.mpr ⟨q, hq, by rw [if_pos hqk]⟩,
          by simp⟩

/-- Membership in the groups built by the `mapsets` fold, with an arbitrary
initial state. -/
theorem mem_buildMapsets_aux (l : List Difficulty) :
    ∀ (ms : List (Nat × List Difficulty)) (x : Difficulty),
    (∃ p ∈ l.foldl (fun ms d => setdefaultAppend ms d.beatmapset_id d) ms,
      x ∈ p.2) ↔ (∃ p ∈ ms, x ∈ p.2) ∨ x ∈ l := by
  induction l with
  | nil => intro ms x; simp
  | cons d tl ih =>
    intro ms x
    rw [List.foldl_cons, ih, mem_setdefaultAppend]
    rw [List.mem_cons, or_assoc]

/-- A record is reachable from the assembled ChartSet sequence iff it is
one of the decoded records. -/
theorem reachable_iff_mem (bs : List Difficulty) (x : Difficulty) :
    (∃ song ∈ (assemble bs).songs, x ∈ song.difficulties) ↔ x ∈ bs := by
  unfold assemble buildMapsets
  constructor
  · rintro ⟨song, hsong, hx⟩
    simp only [List.mem_map] at hsong
    obtain ⟨p, hp, rfl⟩ := hsong
    have h := (mem_buildMapsets_aux bs [] x).mp ⟨p, hp, hx⟩
    simpa using h
  · intro hx
    obtain ⟨p, hp, hxp⟩ := (mem_buildMapsets_aux bs [] x).mpr (Or.inr hx)
    exact ⟨{ difficulties := p.2 }, List.mem_map.mpr ⟨p, hp, rfl⟩, hxp⟩

/-- With pairwise-distinct chart ids, the dict fold never overwrites and
the index is just the list of (id, record) pairs in decode order. -/
theorem buildBidMapping_aux (l : List Difficulty) :
    ∀ (acc : List (Nat × Difficulty)),
    (∀ p ∈ acc, ∀ d ∈ l, p.1 ≠ d.beatmap_id) →
    l.Pairwise (fun a b => a.beatmap_id ≠ b.beatmap_id) →
    l.foldl (fun m d => dictInsert m d.beatmap_id d) acc =
      acc ++ l.map (fun d => (d.beatmap_id, d)) := by
  induction l with
  | nil => intro acc _ _; simp
  | cons d tl ih =>
    intro acc hacc hpw
    rw [List.foldl_cons]
    have hnot : acc.any (fun p => p.1 == d.beatmap_id) = false := by
      rw [List.any_eq_false]
      intro p hp
      simp only [beq_iff_eq]
      exact hacc p hp d (List.mem_cons_self d tl)
    have hd : dictInsert acc d.beatmap_id d = acc ++ [(d.beatmap_id, d)] := by
      unfold dictInsert
      rw [hnot]
      simp
    have hacc' : ∀ p ∈ acc ++ [(d.beatmap_id, d)], ∀ e ∈ tl, p.1 ≠ e.beatmap_id := by
      intro p hp e he
      rcases List.mem_append.mp hp with hmem | hmem
      · exact hacc p hmem e (List.mem_cons_of_mem d he)
      · simp only [List.mem_singleton] at hmem
        subst hmem
        have h1 := (List.pairwise_cons.mp hpw).1 e he
        simpa using h1
    rw [hd, ih (acc ++ [(d.beatmap_id, d)]) hacc' (List.pairwise_cons.mp hpw).2]
    simp

/-- `buildBidMapping` under pairwise-distinct chart ids. -/
theorem buildBidMapping_eq {bs : List Difficulty}
    (h : bs.Pairwise (fun a b => a.beatmap_id ≠ b.beatmap_id)) :
    buildBidMapping bs = bs.map (fun d => (d.beatmap_id, d)) := by
  have h1 := buildBidMapping_aux bs [] (by simp) h
  simpa [buildBidMapping] using h1

/-- Counting a record's own (id, record) pair in the mapped index equals
counting the record itself. -/
theorem count_map_pair (bs : List Difficulty) (d : Difficulty) :
    (bs.map (fun e => (e.beatmap_id, e))).count (d.beatmap_id, d) = bs.count d := by
  induction bs with
  | nil => rfl
  | cons e tl ih =>
    rw [List.map_cons, List.count_cons, List.count_cons, ih]
    congr 1
    by_cases h : e = d
    · subst h
      simp
    · have h1 : ((e.beatmap_id, e) == (d.beatmap_id, d)) = false := by
        simp only [beq_eq_false_iff_ne, ne_eq, Prod.mk.injEq, not_and]
        intro _ hed
        exact h hed
      have h2 : (e == d) = false := by
        simp only [beq_eq_false_iff_ne, ne_eq]
        exact h
      rw [h1, h2]

/-- C8 (amended): in an assembled Catalog whose decoded records carry
pairwise-distinct chart ids, every record reachable from the ChartSet
sequence appears exactly once in the chart-id index, keyed by its own
chart id.  (Without the distinctness hypothesis this fails: a later
duplicate silently overwrites the earlier record, which then no longer
appears in the index at all — see the counterexample.) -/
theorem claim_C8_unique_index_entry (bs : List Difficulty)
    (hd : bs.Pairwise (fun a b => a.beatmap_id ≠ b.beatmap_id))
    (d : Difficulty)
    (hr : ∃ song ∈ (assemble bs).songs, d ∈ song.difficulties) :
    ((assemble bs).bid_mapping).count (d.beatmap_id, d) = 1 := by
  have hmem : d ∈ bs := (reachable_iff_mem bs d).mp hr
  have hnodup : bs.Nodup :=
    hd.imp (fun hab heq => hab (congrArg Difficulty.beatmap_id heq))
  have hbid : (assemble bs).bid_mapping = bs.map (fun e => (e.beatmap_id, e)) :=
    buildBidMapping_eq hd
  rw [hbid, count_map_pair]
  exact List.count_eq_one_of_mem hnodup hmem

/-- Two distinct records sharing chart id 1, plus a third with id 2. -/
def dupA : Difficulty :=
  { path := [], name := [97], artist := [], mapper := [], difficulty := []
    ar := 0, cs := 0, hp := 0, od := 0, hash := []
    api_beatmap_id := 1, beatmap_id := 1, beatmapset_id := 5, timing := [] }

/-- A second record with the SAME chart id 1 but different content. -/
def dupB : Difficulty := { dupA with name := [98] }

/-- A record with a fresh chart id 2. -/
def recC : Difficulty := { dupA with name := [99], api_beatmap_id := 2, beatmap_id := 2 }

/-- C8 counterexample: after decoding the two distinct records `dupA` and
`dupB`, which share chart id 1, `dupA` is still reachable from the
ChartSet sequence but appears ZERO times in the index (the later `dupB`
overwrote its entry), refuting "every reachable ChartRecord appears
exactly once in the index". -/
theorem claim_C8_counterexample :
    (∃ song ∈ (assemble [dupA, dupB]).songs, dupA ∈ song.difficulties) ∧
    ((assemble [dupA, dupB]).bid_mapping).count (dupA.beatmap_id, dupA) = 0 := by
  constructor
  · decide
  · decide

/-- Witness for C8 (amended) on two records with distinct chart ids. -/
theorem claim_C8_witness :
    ((assemble [dupA, recC]).bid_mapping).count (dupA.beatmap_id, dupA) = 1 :=
  claim_C8_unique_index_entry [dupA, recC] (by decide) dupA (by decide)
